import Mathlib

/-!
# Verification of the timeTracking session engine (`src/timeclock.py`)

Shallow embedding of the session-tracking core of `timeclock.py`:

* timezone-aware datetimes are embedded as `DT` — an absolute instant in
  integer seconds since the Unix epoch together with its UTC offset in
  seconds (Python's `datetime.fromisoformat` only ever produces
  fixed-offset `tzinfo`, so an offset integer captures it exactly);
  comparison and subtraction of aware datetimes use the absolute instant,
  as in Python;
* the code's `Session` dataclass keeps ISO strings and parses them lazily
  through `start_dt`/`end_dt`; the time-arithmetic layer below works on
  the parsed view (`Session` with `DT` fields), while the storage layer
  (`load_sessions`, `save_sessions`) is embedded separately over a small
  JSON value type, keeping the unparsed, unvalidated fields the code
  actually stores;
* sub-second precision: the code serializes with `timespec="seconds"` and
  truncates `total_seconds()` with `int(...)`, so integer seconds are
  exact for the values handled here.
-/

namespace TimeClock

/-- An offset-aware instant: absolute seconds since the Unix epoch (`utc`)
together with the UTC offset, in seconds, carried by its `tzinfo`.
Python compares and subtracts aware datetimes by absolute instant. -/
structure DT where
  utc : Int
  off : Int
deriving DecidableEq, Repr

instance : Inhabited DT := ⟨⟨0, 0⟩⟩

/-- `start_of_today_local` (timeclock.py:46-48): take `now`, zero the
hour/minute/second/microsecond fields of its local wall clock, keep its
offset.  Local wall-clock seconds are `utc + off`; truncating them to the
day boundary and converting back gives this. `Int.emod` agrees with
Python's `%` on a positive modulus. -/
def startOfTodayLocal (now : DT) : DT :=
  ⟨now.utc - (now.utc + now.off).emod 86400, now.off⟩

/-- One day in seconds; `timedelta(days=1)` added to a fixed-offset aware
datetime advances the absolute instant by exactly this. -/
def daySeconds : Int := 86400

/-- Parsed view of the `Session` dataclass (timeclock.py:51-69):
`start` is `start_dt()`, `stop` is `end_dt()` (`none` when `end_iso` is
`None`), `note` the note string. -/
structure Session where
  start : DT
  stop : Option DT
  note : String
deriving DecidableEq, Repr

instance : Inhabited Session := ⟨⟨default, none, ""⟩⟩

/-- `Session.is_running` (timeclock.py:63-64): `end_iso is None`. -/
def Session.isRunning (s : Session) : Bool :=
  s.stop.isNone

/-- `Session.duration_seconds` (timeclock.py:66-69):
`int(((end_dt or now_local()) - start_dt).total_seconds())` — note the
code applies no flooring here. -/
def Session.durationSeconds (s : Session) (now : DT) : Int :=
  (s.stop.getD now).utc - s.start.utc

/-- Descending scan of `running_session_index` (timeclock.py:187-191):
`for i in range(len(sessions) - 1, -1, -1)`. The argument `n` is the
number of leading positions still to inspect, highest index first. -/
def runningSessionIndexAux (sessions : List Session) : Nat → Option Nat
  | 0 => none
  | n + 1 =>
    if (sessions.getD n default).isRunning then some n
    else runningSessionIndexAux sessions n

/-- `TimeClockApp.running_session_index` (timeclock.py:187-191): the
greatest index whose session is running, else `none`. -/
def runningSessionIndex (sessions : List Session) : Option Nat :=
  runningSessionIndexAux sessions sessions.length

/-- `str.strip()` applied to the note field's text
(timeclock.py:199): drop leading and trailing whitespace. -/
def stripNote (s : String) : String :=
  ⟨(((s.data.dropWhile Char.isWhitespace).reverse.dropWhile
      Char.isWhitespace).reverse)⟩

/-- `TimeClockApp.toggle` (timeclock.py:196-207), restricted to its effect
on the session list: when no session is running, append a new running
session at `now` with the stripped note; otherwise set `end` on the
session at the running index.  (The subsequent `save_sessions` call is
modelled by `saveSessions` below.) -/
def toggle (sessions : List Session) (note : String) (now : DT) : List Session :=
  match runningSessionIndex sessions with
  | none => sessions ++ [⟨now, none, stripNote note⟩]
  | some i => sessions.set i { sessions.getD i default with stop := some now }

/-- One `del self.sessions[i]` guarded by `0 <= i < len(self.sessions)`
(timeclock.py:217-219). -/
def deleteAt (sessions : List Session) (i : Nat) : List Session :=
  if i < sessions.length then sessions.eraseIdx i else sessions

/-- `TimeClockApp.delete_selected` (timeclock.py:209-223), restricted to
its effect on the list: the selected indices are deleted in descending
order, each bounds-checked. -/
def deleteSelected (sessions : List Session) (idxs : List Nat) : List Session :=
  (idxs.mergeSort (fun a b => b ≤ a)).foldl deleteAt sessions

/-- The per-session loop body of `TimeClockApp.compute_totals`
(timeclock.py:261-273), acting on the `(today_sec, all_sec)` accumulator.
`todayStart`/`tomorrowStart` are fixed before the loop. -/
def totalsStep (now todayStart tomorrowStart : DT) (acc : Int × Int)
    (s : Session) : Int × Int :=
  let start := s.start
  let e := s.stop.getD now
  let dur := e.utc - start.utc
  let allSec := if dur > 0 then acc.2 + dur else acc.2
  let overlapStart := max start.utc todayStart.utc
  let overlapEnd := min e.utc tomorrowStart.utc
  let overlap := overlapEnd - overlapStart
  let todaySec := if overlap > 0 then acc.1 + overlap else acc.1
  (todaySec, allSec)

/-- `TimeClockApp.compute_totals` (timeclock.py:253-275): returns
`(today_sec, all_sec)`.  The code calls `now_local()` for `today_start`
and once per running session; the pure embedding passes the single
reference instant `now`, as the spec does. -/
def computeTotals (sessions : List Session) (now : DT) : Int × Int :=
  let todayStart := startOfTodayLocal now
  let tomorrowStart : DT := ⟨todayStart.utc + daySeconds, todayStart.off⟩
  sessions.foldl (totalsStep now todayStart tomorrowStart) (0, 0)

/-- `today_seconds` of the spec: first component of `compute_totals`. -/
def todaySeconds (sessions : List Session) (now : DT) : Int :=
  (computeTotals sessions now).1

/-- `total_seconds` of the spec: second component of `compute_totals`. -/
def totalSeconds (sessions : List Session) (now : DT) : Int :=
  (computeTotals sessions now).2

/-- Written from the spec's words, for comparison with `computeTotals`:
"Overlap = `max(0, min(end, tomorrow_start) − max(start, today_start))`"
with `end` meaning end-or-now and the day window derived from `now`. -/
def overlapWithToday (s : Session) (now : DT) : Int :=
  max 0 (min (s.stop.getD now).utc ((startOfTodayLocal now).utc + daySeconds)
    - max s.start.utc (startOfTodayLocal now).utc)

/-- The positive part of a session's raw duration, as accumulated into
`all_sec` by `compute_totals` (`if dur > 0`). -/
def durContribution (s : Session) (now : DT) : Int :=
  max 0 (s.durationSeconds now)

/-! ## Operation sequences (for the single-running-session invariant)

The engine's only mutators of the session list are `toggle` and
`delete_selected`; a sequence of them from the initial (empty) state is a
list of `Op`s. -/

/-- A mutating call on the engine: a press of the toggle button (with the
note field's content and the wall clock at that moment) or a deletion of a
set of selected row indices. -/
inductive Op where
  | toggleOp (note : String) (now : DT)
  | deleteOp (idxs : List Nat)
deriving Repr

/-- Apply one mutating call to the session list. -/
def applyOp (sessions : List Session) : Op → List Session
  | .toggleOp note now => toggle sessions note now
  | .deleteOp idxs => deleteSelected sessions idxs

/-- The session list reached by a sequence of calls from the initial
empty collection. -/
def applyOps (ops : List Op) : List Session :=
  ops.foldl applyOp []

/-- Number of running sessions (sessions with `end` absent) in the list. -/
def runCount (sessions : List Session) : Nat :=
  sessions.countP (fun s => s.isRunning)

/-! ## Storage layer

`load_sessions` (timeclock.py:78-81) runs `json.loads` on the file and
builds `Session(**s)` for each `s in raw.get("sessions", [])` — it never
parses or validates the timestamp strings (parsing happens lazily in
`start_dt`/`end_dt`).  The parsed JSON document is embedded with just the
shapes these claims need: field values are null or strings, the document
either lacks the `"sessions"` key or maps it to a list of records, each
record an association list of keys to field values. -/

/-- A JSON field value as stored in a session record: `null` or a
string. -/
inductive JField where
  | fnull
  | fstr (s : String)
deriving DecidableEq, Repr

/-- A parsed session record: an association list of JSON object keys to
field values (JSON objects from `json.loads` have unique keys). -/
def RawRecord : Type := List (String × JField)

/-- A parsed document: `sessions` is the value under the `"sessions"` key
when that key is present, `none` when the object lacks it. -/
structure RawDoc where
  sessions : Option (List RawRecord)

/-- A stored session exactly as `Session(**s)` keeps it: the three field
values, unparsed and unvalidated. -/
structure SessionRec where
  start_iso : JField
  end_iso : JField
  note : JField
deriving DecidableEq, Repr

/-- First value under key `k` in a record. -/
def lookupKey (fields : RawRecord) (k : String) : Option JField :=
  (fields.find? (fun kv => kv.1 == k)).map (fun kv => kv.2)

/-- `Session(**s)` for one record: the dataclass constructor takes exactly
the keyword arguments `start_iso`, `end_iso`, `note`; a missing or
unexpected key raises `TypeError`.  The accepted values are stored
verbatim — no timestamp parsing or validation happens here. -/
def sessionOfRecord (fields : RawRecord) : Except String SessionRec :=
  if fields.all (fun kv =>
      kv.1 == "start_iso" || kv.1 == "end_iso" || kv.1 == "note") then
    match lookupKey fields "start_iso", lookupKey fields "end_iso",
        lookupKey fields "note" with
    | some sv, some ev, some nv => .ok ⟨sv, ev, nv⟩
    | _, _, _ => .error "TypeError: missing required argument"
  else
    .error "TypeError: unexpected keyword argument"

/-- `load_sessions` (timeclock.py:78-81) on a parsed document:
`[Session(**s) for s in raw.get("sessions", [])]`.  A document without
the `"sessions"` key yields the empty list; an exception from any
`Session(**s)` propagates. -/
def loadSessions (doc : RawDoc) : Except String (List SessionRec) :=
  match doc.sessions with
  | none => .ok []
  | some recs => recs.mapM sessionOfRecord

/-- Written from the spec's words (§6), to state which timestamps carry a
UTC offset: for a well-formed ISO-8601 timestamp string, the offset is a
trailing `Z` or a `+`/`-` sign after the time-of-day part (the first 11
characters `YYYY-MM-DDT` are the date part). -/
def hasUtcOffset (s : String) : Bool :=
  let timePart := s.data.drop 11
  timePart.getLast? == some 'Z'
    || timePart.contains '+' || timePart.contains '-'

/-! ## Persistence (`save_sessions`)

`save_sessions` (timeclock.py:84-88) writes the serialized document to
`sessions.tmp` with `write_text` and then runs
`os.replace(tmp, DATA_FILE)`.  The data directory is embedded as the
contents of those two paths; `write_text` is a whole-file update of one
path, `os.replace` an atomic rename (POSIX contract of `os.replace`):
one step that installs the temporary file's content at the canonical path
and removes the temporary path. -/

/-- Contents of the data directory: the canonical `sessions.json` and the
temporary `sessions.tmp` (`none` = the path does not exist). -/
structure FS where
  dataFile : Option String
  tmpFile : Option String
deriving DecidableEq, Repr

/-- Rendering of one instant, standing in for `dt_to_iso`. -/
def serializeDT (d : DT) : String :=
  toString d.utc ++ "/" ++ toString d.off

/-- Rendering of one session record, standing in for `asdict(s)`. -/
def serializeSession (s : Session) : String :=
  "(start=" ++ serializeDT s.start ++ ";end="
    ++ (match s.stop with
        | none => "null"
        | some e => serializeDT e)
    ++ ";note=" ++ s.note ++ ")"

/-- Serialization of the full session collection, modelling
`json.dumps` of the whole document.  The claims never inspect the
rendered text — only whether the canonical file holds a complete
serialization of some session list — so a definite total rendering of
the list suffices. -/
def serializeSessions (sessions : List Session) : String :=
  "(sessions=" ++ String.intercalate ";" (sessions.map serializeSession) ++ ")"

/-- `ensure_storage` (timeclock.py:72-75): create the canonical file with
an empty document when it does not exist. -/
def ensureStorage (fs : FS) : FS :=
  if fs.dataFile.isNone then
    { fs with dataFile := some (serializeSessions []) }
  else fs

/-- The filesystem states `save_sessions` passes through: after
`ensure_storage`, after writing the temporary file, and after
`os.replace`.  The canonical path changes only in the final, atomic
rename step. -/
def saveSessionsTrace (fs : FS) (sessions : List Session) : List FS :=
  let fs0 := ensureStorage fs
  let fs1 := { fs0 with tmpFile := some (serializeSessions sessions) }
  let fs2 := { fs1 with
    dataFile := some (serializeSessions sessions), tmpFile := none }
  [fs0, fs1, fs2]

/-- A completed `save_sessions` call: the last state of the trace. -/
def saveSessions (fs : FS) (sessions : List Session) : FS :=
  (saveSessionsTrace fs sessions).getLastD fs

/-- A `save_sessions` call whose `write_text` on the temporary path fails
(disk full, permissions): the exception propagates before `os.replace`
runs, leaving the temporary path with arbitrary partial content and the
canonical path untouched.  The in-memory session list is not modified by
`save_sessions` at all. -/
def saveSessionsWriteFail (fs : FS) (partialTmp : Option String) : FS :=
  { ensureStorage fs with tmpFile := partialTmp }

/-! ## Characterization of `compute_totals` -/

/-- Guarded accumulation (`if x > 0 then a + x else a`) adds the positive
part of `x`. -/
lemma ite_pos_add (a x : Int) : (if x > 0 then a + x else a) = a + max 0 x := by
  rcases lt_or_le 0 x with h | h
  · rw [if_pos h, max_eq_right h.le]
  · rw [if_neg (not_lt.mpr h), max_eq_left h, add_zero]

/-- One loop iteration of `compute_totals` adds the positive parts of the
raw overlap and the raw duration to the two accumulators. -/
lemma totalsStep_eq (now tS tmS : DT) (acc : Int × Int) (s : Session) :
    totalsStep now tS tmS acc s
      = (acc.1 + max 0 (min (s.stop.getD now).utc tmS.utc
            - max s.start.utc tS.utc),
         acc.2 + max 0 ((s.stop.getD now).utc - s.start.utc)) := by
  simp only [totalsStep]
  rw [ite_pos_add, ite_pos_add]

/-- The `compute_totals` loop is the pair of sums of per-session
contributions, shifted by the initial accumulator. -/
lemma foldl_totalsStep (now tS tmS : DT) (l : List Session) :
    ∀ a b : Int,
      l.foldl (totalsStep now tS tmS) (a, b)
        = (a + (l.map (fun s => max 0 (min (s.stop.getD now).utc tmS.utc
              - max s.start.utc tS.utc))).sum,
           b + (l.map (fun s =>
              max 0 ((s.stop.getD now).utc - s.start.utc))).sum) := by
  induction l with
  | nil => intro a b; simp
  | cons s l ih =>
    intro a b
    simp only [List.foldl_cons, totalsStep_eq, List.map_cons, List.sum_cons]
    rw [ih]
    simp [Prod.ext_iff]
    constructor <;> ring

/-- `compute_totals` returns the sum of spec-formula overlaps and the sum
of positive-part durations. -/
lemma computeTotals_eq (sessions : List Session) (now : DT) :
    computeTotals sessions now
      = ((sessions.map (fun s => overlapWithToday s now)).sum,
         (sessions.map (fun s => durContribution s now)).sum) := by
  unfold computeTotals
  rw [foldl_totalsStep]
  simp only [overlapWithToday, durContribution, Session.durationSeconds,
    zero_add]

/-- `C1`: for every session list and reference `now`, `today_seconds` is
the sum over all sessions of the spec's overlap formula
`max(0, min(end-or-now, tomorrow_start) − max(start, today_start))` for
the local day of `now`; and the session from `2024-01-01T23:30:00-05:00`
(epoch 1704169800) to `2024-01-02T00:30:00-05:00` (epoch 1704173400),
with `now = 2024-01-02T12:00:00-05:00` (epoch 1704214800, offset
−18000 s), contributes exactly 1800 seconds to `today_seconds` and 3600
seconds to `total_seconds`. -/
theorem todaySeconds_overlap_sum_and_example :
    (∀ (sessions : List Session) (now : DT),
      todaySeconds sessions now
        = (sessions.map (fun s => overlapWithToday s now)).sum)
    ∧ todaySeconds [⟨⟨1704169800, -18000⟩, some ⟨1704173400, -18000⟩, "w"⟩]
        ⟨1704214800, -18000⟩ = 1800
    ∧ totalSeconds [⟨⟨1704169800, -18000⟩, some ⟨1704173400, -18000⟩, "w"⟩]
        ⟨1704214800, -18000⟩ = 3600 := by
  refine ⟨fun sessions now => ?_, by decide, by decide⟩
  rw [todaySeconds, computeTotals_eq]

/-- `C6`: for every session list and reference `now`,
`today_seconds ≤ total_seconds`: each session's clamped overlap with
today's window is at most its clamped duration. -/
theorem todaySeconds_le_totalSeconds (sessions : List Session) (now : DT) :
    todaySeconds sessions now ≤ totalSeconds sessions now := by
  rw [todaySeconds, totalSeconds, computeTotals_eq]
  dsimp only
  apply List.sum_le_sum
  intro s _
  unfold overlapWithToday durContribution Session.durationSeconds
  have h1 : min (s.stop.getD now).utc ((startOfTodayLocal now).utc + daySeconds)
      ≤ (s.stop.getD now).utc := min_le_left _ _
  have h2 : s.start.utc ≤ max s.start.utc (startOfTodayLocal now).utc :=
    le_max_left _ _
  exact max_le_max le_rfl (by omega)

/-! ## Duration (`Session.duration_seconds`) -/

/-- `C2` counterexample: `duration_seconds` applies no flooring.  For the
session with `start` at epoch 100 and `end` at epoch 40 (clock skew), and
`now` at epoch 200 (so `now ≥ start`), the code returns −60, a negative
number of seconds — the claim says the result is floored at zero. -/
theorem durationSeconds_negative_example :
    (⟨⟨100, 0⟩, some ⟨40, 0⟩, ""⟩ : Session).start.utc ≤ (200 : Int)
    ∧ Session.durationSeconds ⟨⟨100, 0⟩, some ⟨40, 0⟩, ""⟩ ⟨200, 0⟩ = -60
    ∧ Session.durationSeconds ⟨⟨100, 0⟩, some ⟨40, 0⟩, ""⟩ ⟨200, 0⟩ < 0 := by
  decide

/-- `C2` amended: `duration_seconds` returns `(end or now) − start` with
no flooring; it is non-negative whenever `now ≥ start` and the session's
`end`, when present, is `≥ start`.  When `end < start` (clock skew) the
returned value is negative — clamping happens only downstream, in
`fmt_duration` and in `compute_totals`. -/
theorem durationSeconds_nonneg (s : Session) (now : DT)
    (hnow : s.start.utc ≤ now.utc)
    (hstop : ∀ e ∈ s.stop, s.start.utc ≤ e.utc) :
    0 ≤ s.durationSeconds now := by
  unfold Session.durationSeconds
  cases h : s.stop with
  | none => simp only [h, Option.getD_none]; omega
  | some e =>
    have := hstop e (by simp [h])
    simp only [h, Option.getD_some]
    omega

/-- Witness for `durationSeconds_nonneg` at a concrete closed session. -/
theorem durationSeconds_nonneg_witness :
    0 ≤ Session.durationSeconds ⟨⟨0, 0⟩, some ⟨5, 0⟩, ""⟩ ⟨10, 0⟩ :=
  durationSeconds_nonneg ⟨⟨0, 0⟩, some ⟨5, 0⟩, ""⟩ ⟨10, 0⟩ (by decide)
    (by intro e he; simp only [Option.mem_def, Option.some.injEq] at he
        subst he; decide)

/-! ## The running-session scan -/

/-- If the descending scan over the first `n` positions finds nothing,
no position below `n` holds a running session. -/
lemma runningSessionIndexAux_eq_none (sessions : List Session) :
    ∀ n, runningSessionIndexAux sessions n = none →
      ∀ k, k < n → (sessions.getD k default).isRunning = false := by
  intro n
  induction n with
  | zero => intro _ k hk; omega
  | succ n ih =>
    intro h k hk
    unfold runningSessionIndexAux at h
    cases hr : (sessions.getD n default).isRunning with
    | true => rw [hr] at h; simp at h
    | false =>
      rw [hr] at h; simp only [Bool.false_eq_true, if_false] at h
      rcases Nat.lt_succ_iff_lt_or_eq.mp hk with hk' | rfl
      · exact ih h k hk'
      · exact hr

/-- If the descending scan over the first `n` positions returns `i`, then
`i < n`, the session at `i` is running, and no position strictly between
`i` and `n` holds a running session (the scan goes highest index
first). -/
lemma runningSessionIndexAux_eq_some (sessions : List Session) :
    ∀ n i, runningSessionIndexAux sessions n = some i →
      i < n ∧ (sessions.getD i default).isRunning = true
        ∧ ∀ j, i < j → j < n → (sessions.getD j default).isRunning = false := by
  intro n
  induction n with
  | zero => intro i h; simp [runningSessionIndexAux] at h
  | succ n ih =>
    intro i h
    unfold runningSessionIndexAux at h
    cases hr : (sessions.getD n default).isRunning with
    | true =>
      rw [hr] at h
      simp only [if_true] at h
      obtain rfl : n = i := by simpa using h
      exact ⟨Nat.lt_succ_self n, hr, fun j hj hj' => by omega⟩
    | false =>
      rw [hr] at h; simp only [Bool.false_eq_true, if_false] at h
      obtain ⟨h1, h2, h3⟩ := ih i h
      refine ⟨Nat.lt_succ_of_lt h1, h2, fun j hj hj' => ?_⟩
      rcases Nat.lt_succ_iff_lt_or_eq.mp hj' with hj'' | rfl
      · exact h3 j hj hj''
      · exact hr

/-- `running_session_index = None` means every session in the list is
closed. -/
lemma runCount_eq_zero_of_runningSessionIndex_none (sessions : List Session)
    (h : runningSessionIndex sessions = none) : runCount sessions = 0 := by
  rw [runCount, List.countP_eq_zero]
  intro a ha
  obtain ⟨k, hk, rfl⟩ := List.mem_iff_getElem.mp ha
  have hfalse := runningSessionIndexAux_eq_none sessions sessions.length h k hk
  rw [List.getD_eq_getElem sessions default hk] at hfalse
  simp [hfalse]

/-- `running_session_index = i` means `i` is in bounds, running, and the
greatest running index. -/
lemma runningSessionIndex_eq_some (sessions : List Session) (i : Nat)
    (h : runningSessionIndex sessions = some i) :
    i < sessions.length ∧ (sessions.getD i default).isRunning = true
      ∧ ∀ j, i < j → j < sessions.length →
          (sessions.getD j default).isRunning = false :=
  runningSessionIndexAux_eq_some sessions sessions.length i h

/-- `toggle` in the idle branch (timeclock.py:198-201): append a fresh
running session. -/
lemma toggle_of_none (sessions : List Session) (note : String) (now : DT)
    (h : runningSessionIndex sessions = none) :
    toggle sessions note now = sessions ++ [⟨now, none, stripNote note⟩] := by
  unfold toggle; rw [h]

/-- `toggle` in the running branch (timeclock.py:202-203): set `end` on
the session at the running index. -/
lemma toggle_of_some (sessions : List Session) (note : String) (now : DT)
    (i : Nat) (h : runningSessionIndex sessions = some i) :
    toggle sessions note now
      = sessions.set i { sessions.getD i default with stop := some now } := by
  unfold toggle; rw [h]

/-! ## `C3`, `C4`: there is no failing `start`/`stop` — only `toggle` -/

/-- `C3` counterexample: in a state with one running session, the code's
only start/stop entry point (`toggle`) does not fail with `AlreadyRunning`
— it succeeds and changes the collection's content, closing the running
session. -/
theorem toggle_while_running_changes_collection :
    toggle [⟨⟨0, 0⟩, none, "a"⟩] "b" ⟨50, 0⟩ = [⟨⟨0, 0⟩, some ⟨50, 0⟩, "a"⟩]
    ∧ toggle [⟨⟨0, 0⟩, none, "a"⟩] "b" ⟨50, 0⟩ ≠ [⟨⟨0, 0⟩, none, "a"⟩] := by
  decide

/-- `C3` amended: the code exposes a single `toggle` entry point and no
`AlreadyRunning` error.  A start (append) can never happen while a
session is running: when a running session exists, `toggle` performs the
stop action instead — the list keeps its length and its only change is
setting `end = now` on the running session. -/
theorem toggle_while_running_never_starts (sessions : List Session)
    (note : String) (now : DT) (i : Nat)
    (h : runningSessionIndex sessions = some i) :
    (toggle sessions note now).length = sessions.length
    ∧ toggle sessions note now
        = sessions.set i { sessions.getD i default with stop := some now } := by
  rw [toggle_of_some sessions note now i h]
  exact ⟨List.length_set sessions i _, rfl⟩

/-- Witness for `toggle_while_running_never_starts`. -/
theorem toggle_while_running_never_starts_witness :
    (toggle [⟨⟨0, 0⟩, none, "a"⟩] "b" ⟨50, 0⟩).length
        = [(⟨⟨0, 0⟩, none, "a"⟩ : Session)].length
    ∧ toggle [⟨⟨0, 0⟩, none, "a"⟩] "b" ⟨50, 0⟩
        = [⟨⟨0, 0⟩, none, "a"⟩].set 0
            { [(⟨⟨0, 0⟩, none, "a"⟩ : Session)].getD 0 default
                with stop := some ⟨50, 0⟩ } :=
  toggle_while_running_never_starts [⟨⟨0, 0⟩, none, "a"⟩] "b" ⟨50, 0⟩ 0
    (by decide)

/-- `C4` counterexample: with no running session, the code's only
start/stop entry point (`toggle`) does not fail with `NotRunning` — it
appends a new running session, producing a different collection which it
then persists. -/
theorem toggle_while_idle_changes_collection :
    toggle [] "n" ⟨7, 0⟩ = [⟨⟨7, 0⟩, none, "n"⟩]
    ∧ toggle [] "n" ⟨7, 0⟩ ≠ ([] : List Session) := by
  constructor
  · rw [toggle_of_none [] "n" ⟨7, 0⟩ rfl]; decide
  · rw [toggle_of_none [] "n" ⟨7, 0⟩ rfl]; decide

/-- `C4` amended: the code exposes a single `toggle` entry point and no
`NotRunning` error.  A stop can never happen while idle: with no running
session, `toggle` performs the start action instead — it appends one new
running session with `start = now` and the stripped note (and the
collection, now grown by one, is then persisted by `save_sessions`). -/
theorem toggle_while_idle_never_stops (sessions : List Session)
    (note : String) (now : DT)
    (h : runningSessionIndex sessions = none) :
    toggle sessions note now = sessions ++ [⟨now, none, stripNote note⟩]
    ∧ (toggle sessions note now).length = sessions.length + 1 := by
  rw [toggle_of_none sessions note now h]
  exact ⟨rfl, by simp⟩

/-- Witness for `toggle_while_idle_never_stops`. -/
theorem toggle_while_idle_never_stops_witness :
    toggle [] "n" ⟨7, 0⟩ = [] ++ [⟨⟨7, 0⟩, none, stripNote "n"⟩]
    ∧ (toggle [] "n" ⟨7, 0⟩).length = ([] : List Session).length + 1 :=
  toggle_while_idle_never_stops [] "n" ⟨7, 0⟩ rfl

/-! ## `C5`: the single-running-session invariant -/

/-- Closing the running session at a bounds-checked index drops the
running count by exactly one. -/
lemma runCount_set_closed :
    ∀ (l : List Session) (i : Nat), i < l.length →
      (l.getD i default).isRunning = true → ∀ now : DT,
      runCount (l.set i { l.getD i default with stop := some now }) + 1
        = runCount l := by
  intro l
  induction l with
  | nil => intro i hi; simp at hi
  | cons x l ih =>
    intro i hi hrun now
    cases i with
    | zero =>
      simp only [List.getD_cons_zero] at hrun ⊢
      simp only [List.set_cons_zero, runCount, List.countP_cons]
      have h1 : ({ x with stop := some now } : Session).isRunning = false := rfl
      simp only [h1, hrun, Bool.false_eq_true, if_false, if_true, add_zero]
    | succ n =>
      simp only [List.getD_cons_succ] at hrun ⊢
      simp only [List.set_cons_succ, runCount, List.countP_cons]
      have := ih n (by simpa using hi) hrun now
      simp only [runCount] at this
      omega

/-- A `toggle` keeps the number of running sessions at most one. -/
lemma runCount_toggle_le_one (sessions : List Session) (note : String)
    (now : DT) (h : runCount sessions ≤ 1) :
    runCount (toggle sessions note now) ≤ 1 := by
  cases hidx : runningSessionIndex sessions with
  | none =>
    rw [toggle_of_none sessions note now hidx, runCount, List.countP_append]
    have h0 := runCount_eq_zero_of_runningSessionIndex_none sessions hidx
    rw [runCount] at h0
    rw [h0]
    simp [Session.isRunning]
  | some i =>
    obtain ⟨hlt, hrun, -⟩ := runningSessionIndex_eq_some sessions i hidx
    rw [toggle_of_some sessions note now i hidx]
    have hc := runCount_set_closed sessions i hlt hrun now
    omega

/-- Deleting one bounds-checked index never increases the running count. -/
lemma runCount_deleteAt_le (sessions : List Session) (i : Nat) :
    runCount (deleteAt sessions i) ≤ runCount sessions := by
  unfold deleteAt
  split
  · exact (List.eraseIdx_sublist sessions i).countP_le _
  · exact le_rfl

/-- Deleting one bounds-checked index never increases the length. -/
lemma length_deleteAt_le (sessions : List Session) (i : Nat) :
    (deleteAt sessions i).length ≤ sessions.length := by
  unfold deleteAt
  split
  · exact (List.eraseIdx_sublist sessions i).length_le
  · exact le_rfl

/-- The deletion loop never increases the running count. -/
lemma runCount_foldl_deleteAt_le :
    ∀ (idl : List Nat) (l : List Session),
      runCount (idl.foldl deleteAt l) ≤ runCount l := by
  intro idl
  induction idl with
  | nil => intro l; exact le_rfl
  | cons i idl ih =>
    intro l
    calc runCount ((i :: idl).foldl deleteAt l)
        = runCount (idl.foldl deleteAt (deleteAt l i)) := by
          rw [List.foldl_cons]
      _ ≤ runCount (deleteAt l i) := ih _
      _ ≤ runCount l := runCount_deleteAt_le l i

/-- The deletion loop never increases the length. -/
lemma length_foldl_deleteAt_le :
    ∀ (idl : List Nat) (l : List Session),
      (idl.foldl deleteAt l).length ≤ l.length := by
  intro idl
  induction idl with
  | nil => intro l; exact le_rfl
  | cons i idl ih =>
    intro l
    calc ((i :: idl).foldl deleteAt l).length
        = (idl.foldl deleteAt (deleteAt l i)).length := by
          rw [List.foldl_cons]
      _ ≤ (deleteAt l i).length := ih _
      _ ≤ l.length := length_deleteAt_le l i

/-- `delete_selected` never increases the running count. -/
lemma runCount_deleteSelected_le (sessions : List Session) (idxs : List Nat) :
    runCount (deleteSelected sessions idxs) ≤ runCount sessions :=
  runCount_foldl_deleteAt_le _ _

/-- Every mutating call keeps the running count at most one. -/
lemma runCount_applyOp_le_one (sessions : List Session) (op : Op)
    (h : runCount sessions ≤ 1) : runCount (applyOp sessions op) ≤ 1 := by
  cases op with
  | toggleOp note now => exact runCount_toggle_le_one sessions note now h
  | deleteOp idxs => exact (runCount_deleteSelected_le sessions idxs).trans h

/-- The running count stays at most one along any suffix of calls. -/
lemma runCount_foldl_applyOp_le_one :
    ∀ (ops : List Op) (sessions : List Session),
      runCount sessions ≤ 1 → runCount (ops.foldl applyOp sessions) ≤ 1 := by
  intro ops
  induction ops with
  | nil => intro sessions h; exact h
  | cons op ops ih =>
    intro sessions h
    rw [List.foldl_cons]
    exact ih _ (runCount_applyOp_le_one sessions op h)

/-- `C5`: along every sequence of mutating calls from the initial empty
collection, at most one session is running at any observed point;
moreover a `toggle` in the idle state (the start action) grows the list
by one, a `toggle` in the running state (the stop action) keeps the
length, and `delete_selected` never increases it — so only deletion
shrinks the list. -/
theorem single_running_session_invariant :
    (∀ ops : List Op, runCount (applyOps ops) ≤ 1)
    ∧ (∀ (sessions : List Session) (note : String) (now : DT),
        runningSessionIndex sessions = none →
          (toggle sessions note now).length = sessions.length + 1)
    ∧ (∀ (sessions : List Session) (note : String) (now : DT) (i : Nat),
        runningSessionIndex sessions = some i →
          (toggle sessions note now).length = sessions.length)
    ∧ (∀ (sessions : List Session) (idxs : List Nat),
        (deleteSelected sessions idxs).length ≤ sessions.length) := by
  refine ⟨fun ops => ?_, fun sessions note now h => ?_,
    fun sessions note now i h => ?_, fun sessions idxs => ?_⟩
  · exact runCount_foldl_applyOp_le_one ops [] (by simp [runCount])
  · rw [toggle_of_none sessions note now h]; simp
  · rw [toggle_of_some sessions note now i h]; exact List.length_set ..
  · exact length_foldl_deleteAt_le _ _

/-- `C10`: when the collection holds several running sessions (as after
loading an externally edited file), `running_session_index` returns the
greatest index with `end` absent — its session is running and every
higher index is closed — and `toggle` closes exactly that session: the
entry at that index gets `end = now` and every other index is left as it
was, so every earlier running session remains open. -/
theorem runningSessionIndex_greatest_and_toggle_closes_latest
    (sessions : List Session) (i : Nat)
    (h : runningSessionIndex sessions = some i) :
    i < sessions.length
    ∧ (sessions.getD i default).isRunning = true
    ∧ (∀ j, i < j → j < sessions.length →
        (sessions.getD j default).isRunning = false)
    ∧ ∀ (note : String) (now : DT),
        (toggle sessions note now).getD i default
          = { sessions.getD i default with stop := some now }
        ∧ ∀ j, j ≠ i →
            (toggle sessions note now).getD j default
              = sessions.getD j default := by
  obtain ⟨hlt, hrun, hmax⟩ := runningSessionIndex_eq_some sessions i h
  refine ⟨hlt, hrun, hmax, fun note now => ?_⟩
  rw [toggle_of_some sessions note now i h]
  constructor
  · simp [List.getD_eq_getElem?_getD, List.getElem?_set_self, hlt]
  · intro j hj
    simp [List.getD_eq_getElem?_getD, List.getElem?_set_ne (Ne.symm hj)]

/-- Witness for `runningSessionIndex_greatest_and_toggle_closes_latest`
on a collection with two running sessions: the scan picks index 1, the
toggle closes it, and the running session at index 0 stays open. -/
theorem runningSessionIndex_greatest_witness :
    (1 < [(⟨⟨0, 0⟩, none, "a"⟩ : Session), ⟨⟨3, 0⟩, none, "b"⟩].length
      ∧ ([(⟨⟨0, 0⟩, none, "a"⟩ : Session), ⟨⟨3, 0⟩, none, "b"⟩].getD 1
          default).isRunning = true
      ∧ (∀ j, 1 < j →
          j < [(⟨⟨0, 0⟩, none, "a"⟩ : Session), ⟨⟨3, 0⟩, none, "b"⟩].length →
          ([(⟨⟨0, 0⟩, none, "a"⟩ : Session), ⟨⟨3, 0⟩, none, "b"⟩].getD j
            default).isRunning = false)
      ∧ ∀ (note : String) (now : DT),
          (toggle [⟨⟨0, 0⟩, none, "a"⟩, ⟨⟨3, 0⟩, none, "b"⟩] note now).getD 1
              default
            = { [(⟨⟨0, 0⟩, none, "a"⟩ : Session),
                  ⟨⟨3, 0⟩, none, "b"⟩].getD 1 default with stop := some now }
          ∧ ∀ j, j ≠ 1 →
              (toggle [⟨⟨0, 0⟩, none, "a"⟩, ⟨⟨3, 0⟩, none, "b"⟩] note
                  now).getD j default
                = [(⟨⟨0, 0⟩, none, "a"⟩ : Session),
                    ⟨⟨3, 0⟩, none, "b"⟩].getD j default)
    ∧ ((toggle [⟨⟨0, 0⟩, none, "a"⟩, ⟨⟨3, 0⟩, none, "b"⟩] "" ⟨9, 0⟩).getD 0
        default).isRunning = true :=
  ⟨runningSessionIndex_greatest_and_toggle_closes_latest
      [⟨⟨0, 0⟩, none, "a"⟩, ⟨⟨3, 0⟩, none, "b"⟩] 1 (by decide),
   by decide⟩

/-- Witness for `single_running_session_invariant` on a concrete
start/stop/delete sequence. -/
theorem single_running_session_invariant_witness :
    runCount (applyOps
        [Op.toggleOp "a" ⟨0, 0⟩, Op.toggleOp "" ⟨5, 0⟩, Op.deleteOp [0]]) ≤ 1
    ∧ (toggle [] "a" ⟨0, 0⟩).length = ([] : List Session).length + 1
    ∧ (toggle [⟨⟨0, 0⟩, none, "a"⟩] "" ⟨5, 0⟩).length
        = [(⟨⟨0, 0⟩, none, "a"⟩ : Session)].length
    ∧ (deleteSelected [⟨⟨0, 0⟩, some ⟨5, 0⟩, "a"⟩] [0]).length
        ≤ [(⟨⟨0, 0⟩, some ⟨5, 0⟩, "a"⟩ : Session)].length :=
  ⟨single_running_session_invariant.1 _,
   single_running_session_invariant.2.1 [] "a" ⟨0, 0⟩ rfl,
   single_running_session_invariant.2.2.1 [⟨⟨0, 0⟩, none, "a"⟩] "" ⟨5, 0⟩ 0
     (by decide),
   single_running_session_invariant.2.2.2 [⟨⟨0, 0⟩, some ⟨5, 0⟩, "a"⟩] [0]⟩

/-! ## `C8`, `C9`: the load path -/

/-- `C8` counterexample: a persisted record whose `start_iso` lacks a UTC
offset is loaded without any failure — `load_sessions` builds
`Session(**s)` from the raw fields and never parses or validates the
timestamp — while the claim says the load rejects it. -/
theorem loadSessions_accepts_offsetless_start :
    hasUtcOffset "2024-01-01T12:00:00" = false
    ∧ loadSessions ⟨some [[("start_iso", JField.fstr "2024-01-01T12:00:00"),
        ("end_iso", JField.fnull), ("note", JField.fstr "")]]⟩
      = .ok [⟨JField.fstr "2024-01-01T12:00:00", JField.fnull,
          JField.fstr ""⟩] := by
  exact ⟨by decide, rfl⟩

/-- `C8` amended: `load_sessions` validates only the record's keys, never
the timestamp values.  Any record carrying exactly the keys `start_iso`,
`end_iso`, `note` is loaded with its field values stored verbatim —
whether or not the start timestamp carries a UTC offset; a missing offset
surfaces only later, when aware/naive datetime arithmetic is attempted
outside of load. -/
theorem loadSessions_no_timestamp_validation (sv ev nv : JField) :
    loadSessions ⟨some [[("start_iso", sv), ("end_iso", ev), ("note", nv)]]⟩
      = .ok [⟨sv, ev, nv⟩] := by
  rfl

/-- `C9`: a backing file holding a JSON object that lacks the
`"sessions"` key loads as the empty session list without any error:
`raw.get("sessions", [])` supplies the default. -/
theorem loadSessions_missing_sessions_key (doc : RawDoc)
    (h : doc.sessions = none) : loadSessions doc = .ok [] := by
  unfold loadSessions
  rw [h]

/-- Witness for `loadSessions_missing_sessions_key`. -/
theorem loadSessions_missing_sessions_key_witness :
    loadSessions ⟨none⟩ = .ok [] :=
  loadSessions_missing_sessions_key ⟨none⟩ rfl

/-! ## `C7`: atomic persistence -/

/-- `C7`: `save_sessions` writes the full serialized collection to the
temporary path first — through the first two states of the trace the
canonical file still holds its previous content — and installs it at the
canonical path in the single final rename step.  A write failure on the
temporary path (arbitrary partial temporary content, exception raised
before the rename) leaves the previously-durable canonical file intact,
and since `save_sessions` never touches the in-memory list, retrying the
same call with the same collection durably installs its full
serialization. -/
theorem saveSessions_atomic_and_failure_safe (fs : FS)
    (sessions : List Session) (c : String) (partialTmp : Option String)
    (h : fs.dataFile = some c) :
    saveSessionsTrace fs sessions
      = [fs, { fs with tmpFile := some (serializeSessions sessions) },
         { fs with dataFile := some (serializeSessions sessions),
                   tmpFile := none }]
    ∧ ((saveSessionsTrace fs sessions).getD 0 fs).dataFile = some c
    ∧ ((saveSessionsTrace fs sessions).getD 1 fs).dataFile = some c
    ∧ (saveSessions fs sessions).dataFile = some (serializeSessions sessions)
    ∧ (saveSessionsWriteFail fs partialTmp).dataFile = some c
    ∧ (saveSessions (saveSessionsWriteFail fs partialTmp) sessions).dataFile
        = some (serializeSessions sessions) := by
  have he : ensureStorage fs = fs := by
    simp [ensureStorage, h]
  refine ⟨?_, ?_, ?_, ?_, ?_, ?_⟩ <;>
    simp [saveSessionsTrace, saveSessions, saveSessionsWriteFail,
      ensureStorage, he, h]

/-- Witness for `saveSessions_atomic_and_failure_safe` at a concrete
filesystem holding an earlier document. -/
theorem saveSessions_atomic_and_failure_safe_witness :
    saveSessionsTrace ⟨some "old", none⟩ []
      = [⟨some "old", none⟩,
         { FS.mk (some "old") none with
             tmpFile := some (serializeSessions []) },
         { FS.mk (some "old") none with
             dataFile := some (serializeSessions []), tmpFile := none }]
    ∧ ((saveSessionsTrace ⟨some "old", none⟩ []).getD 0
        ⟨some "old", none⟩).dataFile = some "old"
    ∧ ((saveSessionsTrace ⟨some "old", none⟩ []).getD 1
        ⟨some "old", none⟩).dataFile = some "old"
    ∧ (saveSessions ⟨some "old", none⟩ []).dataFile
        = some (serializeSessions [])
    ∧ (saveSessionsWriteFail ⟨some "old", none⟩ (some "junk")).dataFile
        = some "old"
    ∧ (saveSessions (saveSessionsWriteFail ⟨some "old", none⟩ (some "junk"))
          []).dataFile = some (serializeSessions []) :=
  saveSessions_atomic_and_failure_safe ⟨some "old", none⟩ [] "old"
    (some "junk") rfl

end TimeClock
